import Mathlib

/-!
Shallow embedding of the docmost-mcp gateway (src/server.js, src/config.js
and the DocmostClient class) in Lean 4, together with theorems settling the
frozen claims about its specification.

The JavaScript source performs HTTP I/O; the embedding models each handler
as a pure function of the already-received inputs (parsed request bodies,
backend responses supplied by an oracle), translated line by line from the
source.  JavaScript truthiness on optional strings is modelled by `truthy`,
JSON values by the inductive `Json`, and JS object-literal spread by
`spreadInto` over association lists (a JS object has unique keys; the spread
assigns each key in order, overwriting in place).
-/

namespace Docmost

/-- JSON values as received from / sent to the backend.  Numbers are modelled
as integers (the source only ever builds integer literals: 1, 50, -32600). -/
inductive Json where
  | null
  | bool (b : Bool)
  | num (n : Int)
  | str (s : String)
  | arr (elems : List Json)
  | obj (fields : List (String × Json))

/-- JavaScript truthiness of a JSON value (`Boolean(v)`): `null`, `false`,
`0` and the empty string are falsy, everything else is truthy. -/
def jsTruthy : Json → Bool
  | .null => false
  | .bool b => b
  | .num n => !(n == 0)
  | .str s => !(s == "")
  | .arr _ => true
  | .obj _ => true

/-- JavaScript truthiness of an optional string (`undefined`/absent and the
empty string are falsy). -/
def truthy : Option String → Bool
  | none => false
  | some s => !(s == "")

/-- First binding of a key in an association list (JS objects have unique
keys, so first = only). -/
def getKey : List (String × Json) → String → Option Json
  | [], _ => none
  | (k0, v0) :: rest, k => if k0 = k then some v0 else getKey rest k

/-- Property access `j[k]` on a JSON value: `undefined` (`none`) unless the
value is an object carrying the key. -/
def jsonGet (j : Json) (k : String) : Option Json :=
  match j with
  | .obj fields => getKey fields k
  | _ => none

/-- JS assignment `o[k] = v` on an object represented as an association
list: overwrite the first binding of `k` in place, else append. -/
def objSet : List (String × Json) → String → Json → List (String × Json)
  | [], k, v => [(k, v)]
  | (k0, v0) :: rest, k, v =>
      if k0 = k then (k0, v) :: rest else (k0, v0) :: objSet rest k v

/-- JS object-literal spread `{ ...base, ...extra }` restricted to the part
we need: assign every binding of `extra`, in order, into `base`. -/
def spreadInto (base : List (String × Json)) (extra : List (String × Json)) :
    List (String × Json) :=
  extra.foldl (fun acc p => objSet acc p.1 p.2) base

/-- Last binding of a key in a (possibly duplicated) association list; the
value a chain of JS assignments would leave behind. -/
def lastBinding : List (String × Json) → String → Option Json
  | [], _ => none
  | (k0, v0) :: rest, k =>
      match lastBinding rest k with
      | some v => some v
      | none => if k0 = k then some v0 else none

/-- Whether `needle` is a character-wise prefix of `hay`. -/
def isPrefixL : List Char → List Char → Bool
  | [], _ => true
  | _ :: _, [] => false
  | a :: as, b :: bs => a == b && isPrefixL as bs

/-- Whether `needle` occurs as a contiguous substring of `hay`. -/
def containsSub (needle : List Char) : List Char → Bool
  | [] => isPrefixL needle []
  | c :: rest => isPrefixL needle (c :: rest) || containsSub needle rest

/-- JavaScript `hay.includes(needle)`. -/
def strIncludes (hay needle : String) : Bool :=
  containsSub needle.data hay.data

/-- JavaScript `s.toLowerCase()` (ASCII lowering, which is all the source
compares against: the fixed marker is plain ASCII). -/
def strToLower (s : String) : String :=
  String.mk (s.data.map Char.toLower)

/-! ## Backend client: response handling (`DocmostClient.request`) -/

/-- The observable parts of a `fetch` response that `DocmostClient.request`
inspects: `ok`/`status`, the `content-type` header (`""` when absent, as in
the source's `|| ''`), the value `response.json()` would produce and the
text `response.text()` would produce. -/
structure BackendResponse where
  ok : Bool
  status : Nat
  contentType : String
  jsonBody : Json
  textBody : String

/-- The `body` local of `request`: the parsed JSON when the content type
includes `application/json`, otherwise the raw text (a string value —
note a JSON body that is itself a string is equally a string to the later
`typeof body === 'string'` test, which this encoding preserves). -/
def responseBody (r : BackendResponse) : Json :=
  if strIncludes r.contentType "application/json" then r.jsonBody
  else Json.str r.textBody

/-- Errors thrown by `DocmostClient.request`.  The source throws `Error`s
with formatted messages; `backendError` keeps the status and body the
source interpolates into `Docmost devolvió {status}: {message}` and
`configError` carries the fixed HTML-misconfiguration message. -/
inductive ReqError where
  | backendError (status : Nat) (body : Json)
  | configError (msg : String)

/-- The fixed message of the HTML-misconfiguration (`ConfigError`) throw. -/
def htmlErrMsg : String :=
  "Docmost devolvió HTML en lugar de JSON. Revisa que la ruta API sea correcta."

/-- The condition of the HTML guard in `request`:
`contentType.includes('text/html') || (typeof body === 'string' &&
body.toLowerCase().includes('<!doctype html'))`. -/
def isHtmlSignal (r : BackendResponse) : Bool :=
  strIncludes r.contentType "text/html" ||
    (match responseBody r with
     | .str s => strIncludes (strToLower s) "<!doctype html"
     | _ => false)

/-- `DocmostClient.request`, from the point where the response has arrived:
non-ok status throws the backend error first; then the HTML guard; then the
`data`-field unwrapping (`body && typeof body === 'object' &&
hasOwnProperty('data')`, which holds exactly for object values with the
key); otherwise the body is returned verbatim. -/
def request (r : BackendResponse) : Except ReqError Json :=
  let body := responseBody r
  if !r.ok then
    .error (.backendError r.status body)
  else if isHtmlSignal r then
    .error (.configError htmlErrMsg)
  else
    match body with
    | .obj fields =>
        match getKey fields "data" with
        | some v => .ok v
        | none => .ok (Json.obj fields)
    | b => .ok b

/-! ## Backend client: authentication headers and bootstrap -/

/-- The mutable state of a `DocmostClient`: the static token passed to the
constructor and the session cookie set (at most once) by `login`. -/
structure Client where
  apiToken : Option String
  authCookie : Option String

/-- The fixed first header of every `request`. -/
def ctHeader : String × String := ("Content-Type", "application/json")

/-- Headers attached by `request` for the calls the server issues (all go
through `post`, which passes no extra headers): `Authorization: Bearer` if
`this.apiToken` is truthy, else `Cookie: authToken=` if `this.authCookie`
is truthy, else nothing. -/
def requestHeaders (c : Client) : List (String × String) :=
  if truthy c.apiToken then
    [ctHeader, ("Authorization", "Bearer " ++ c.apiToken.getD "")]
  else if truthy c.authCookie then
    [ctHeader, ("Cookie", "authToken=" ++ c.authCookie.getD "")]
  else
    [ctHeader]

/-- Startup configuration as produced by `loadConfig` (config.js). -/
structure Config where
  baseUrl : String
  apiToken : Option String
  credentials : Option (String × String)
  readOnly : Bool
  port : Nat

/-- The client produced by `bootstrap`: constructed with the configured
token and a `null` cookie; then, only when `!appConfig.apiToken &&
appConfig.credentials`, `login` runs and stores the extracted session
token (`loginToken` stands for the token a successful login yields —
`login` refuses to store a falsy one). -/
def bootstrapClient (cfg : Config) (loginToken : String) : Client :=
  let c : Client := { apiToken := cfg.apiToken, authCookie := none }
  if !(truthy cfg.apiToken) && cfg.credentials.isSome then
    { c with authCookie := some loginToken }
  else c

/-! ## Backend client: pagination (`DocmostClient.listPages`) -/

/-- The per-page backend result `listPages` consumes: its `items` array
(`result?.items || []` — absent or falsy becomes the empty list) and its
`meta` field (`none` when absent). -/
structure SidebarResult where
  items : List Json
  meta : Option Json

/-- `lastMeta = result?.meta || null`: a falsy `meta` value collapses to
null. -/
def metaOf (r : SidebarResult) : Option Json :=
  match r.meta with
  | some m => if jsTruthy m then some m else none
  | none => none

/-- `Boolean(lastMeta?.hasNextPage)`. -/
def hasNextOf (m : Option Json) : Bool :=
  match m with
  | some mm =>
      match jsonGet mm "hasNextPage" with
      | some v => jsTruthy v
      | none => false
  | none => false

/-- The loop condition computed from a fetched page. -/
def hasNextR (r : SidebarResult) : Bool := hasNextOf (metaOf r)

/-- The `while (hasNext)` accumulation loop of `listPages`, indexed by the
page counter and run against an oracle giving the backend's response for
each requested page number.  The loop in the source has no iteration cap;
`fuel` bounds how many iterations we unfold, with `none` meaning the loop
is still running after `fuel` round trips. -/
def listPagesLoop (oracle : Nat → SidebarResult) :
    Nat → Nat → List Json → Option (List Json × Option Json)
  | 0, _, _ => none
  | fuel + 1, page, acc =>
      let r := oracle page
      if hasNextR r then listPagesLoop oracle fuel (page + 1) (acc ++ r.items)
      else some (acc ++ r.items, metaOf r)

/-- `DocmostClient.listPages(spaceId)`: the falsy-`spaceId` validation
throw, then the pagination loop starting at page 1 with an empty
accumulator. -/
def listPages (fuel : Nat) (spaceId : Option String)
    (oracle : Nat → SidebarResult) :
    Except String (Option (List Json × Option Json)) :=
  if !truthy spaceId then .error "spaceId es obligatorio para listar páginas."
  else .ok (listPagesLoop oracle fuel 1 [])

/-! ## Backend client: createPage and updatePage -/

/-- An outbound `post` call: path plus JSON body. -/
structure PostRequest where
  path : String
  body : Json

/-- The argument object of `createPage` as built by the dispatcher
(`{title: params.title, content: params.content, spaceId: params.spaceId,
folderId: params.folderId}`). -/
structure CreatePageInput where
  title : Option String
  content : Option String
  spaceId : Option String
  folderId : Option String

/-- The `createPage` validation message. -/
def createPageErrMsg : String :=
  "title, content y spaceId son obligatorios para crear una página."

/-- `DocmostClient.createPage`: validates that `title`, `content` and
`spaceId` are truthy, then posts to `/api/pages/create` with
`parentPageId: folderId || null`. -/
def createPage (p : CreatePageInput) : Except String PostRequest :=
  if !truthy p.title || !truthy p.content || !truthy p.spaceId then
    .error createPageErrMsg
  else
    .ok { path := "/api/pages/create",
          body := Json.obj
            [("title", Json.str (p.title.getD "")),
             ("content", Json.str (p.content.getD "")),
             ("spaceId", Json.str (p.spaceId.getD "")),
             ("parentPageId",
               if truthy p.folderId then Json.str (p.folderId.getD "")
               else Json.null)] }

/-- The `updatePage` validation message. -/
def updatePageErrMsg : String :=
  "pageId es obligatorio para actualizar una página."

/-- The body fields of the `updatePage` post: the object literal
`{ pageId, ...(payload || {}) }` — the `pageId` key first, then every
payload binding assigned over it. -/
def updateBodyFields (pageId : String) (payload : List (String × Json)) :
    List (String × Json) :=
  spreadInto [("pageId", Json.str pageId)] payload

/-- `DocmostClient.updatePage(pageId, payload)`: validates that `pageId`
is truthy, then posts `{ pageId, ...(payload || {}) }` to
`/api/pages/update`.  The payload is modelled as an optional JSON object
(association list); an absent payload spreads nothing. -/
def updatePage (pageId : Option String)
    (payload : Option (List (String × Json))) : Except String PostRequest :=
  if !truthy pageId then .error updatePageErrMsg
  else
    .ok { path := "/api/pages/update",
          body := Json.obj (updateBodyFields (pageId.getD "") (payload.getD [])) }

/-! ## Tool registry -/

/-- A tool descriptor from `baseTools`: name, description, parameter-schema
tags. -/
structure Tool where
  name : String
  description : String
  params : List (String × String)

/-- The static `baseTools` catalog of server.js. -/
def baseTools : List Tool :=
  [{ name := "list_spaces",
     description := "Devuelve los espacios disponibles en Docmost.",
     params := [] },
   { name := "list_pages",
     description := "Lista páginas dentro de un espacio. Requiere spaceId.",
     params := [("spaceId", "string")] },
   { name := "get_page",
     description := "Obtiene una página por su id.",
     params := [("pageId", "string")] },
   { name := "search_pages",
     description := "Busca páginas por texto libre.",
     params := [("query", "string")] },
   { name := "create_page",
     description := "Crea una página nueva. Requiere title, content y spaceId.",
     params := [("title", "string"), ("content", "string"),
                ("spaceId", "string"), ("folderId", "string?")] },
   { name := "update_page",
     description := "Actualiza una página existente. Requiere pageId y los campos a modificar.",
     params := [("pageId", "string"), ("payload", "object")] }]

/-- The advertised tool set computed once in `bootstrap`: in read-only mode
the two mutating descriptors are filtered out. -/
def advertisedTools (readOnly : Bool) : List Tool :=
  if readOnly then
    baseTools.filter
      (fun t => !(t.name == "create_page") && !(t.name == "update_page"))
  else baseTools

/-- JSON serialization of a tool descriptor (as `JSON.stringify` renders
the `baseTools` entries). -/
def toolToJson (t : Tool) : Json :=
  Json.obj
    [("name", Json.str t.name),
     ("description", Json.str t.description),
     ("params", Json.obj (t.params.map (fun p => (p.1, Json.str p.2))))]

/-! ## Dispatcher (`handleToolCall`) -/

/-- The named parameters `handleToolCall` extracts from `params`.  The
`payload` of `update_page` is modelled as an optional JSON object. -/
structure ToolParams where
  spaceId : Option String
  pageId : Option String
  query : Option String
  title : Option String
  content : Option String
  folderId : Option String
  payload : Option (List (String × Json))

/-- All parameters absent (`{}`). -/
def emptyToolParams : ToolParams := ⟨none, none, none, none, none, none, none⟩

instance : Inhabited ToolParams := ⟨emptyToolParams⟩

/-- The client call a successful dispatch forwards to, with the parameters
extracted by name — issued (and validated client-side) only after dispatch
succeeds. -/
inductive ClientCall where
  | listSpaces
  | listPagesCall (spaceId : Option String)
  | getPage (pageId : Option String)
  | searchPages (query : Option String)
  | createPageCall (input : CreatePageInput)
  | updatePageCall (pageId : Option String)
      (payload : Option (List (String × Json)))

/-- The direct-shape request body `{tool, params}` (each possibly absent,
`params` defaulting to `{}`). -/
structure ToolCallBody where
  tool : Option String
  params : Option ToolParams

/-- The message of the missing-`tool` validation throw. -/
def toolRequiredMsg : String := "El campo \"tool\" es obligatorio."

/-- The message of the read-only policy throw. -/
def readOnlyMsg : String :=
  "El servidor está en modo READ_ONLY, no se permiten operaciones de escritura."

/-- The unknown-tool validation message, naming the tool. -/
def unknownToolMsg (t : String) : String := "Herramienta desconocida: " ++ t

/-- The `switch (tool)` of `handleToolCall`, reached only after the
read-only policy check. -/
def dispatchSwitch (t : String) (params : ToolParams) :
    Except String ClientCall :=
  if t = "list_spaces" then .ok .listSpaces
  else if t = "list_pages" then .ok (.listPagesCall params.spaceId)
  else if t = "get_page" then .ok (.getPage params.pageId)
  else if t = "search_pages" then .ok (.searchPages params.query)
  else if t = "create_page" then
    .ok (.createPageCall ⟨params.title, params.content, params.spaceId,
                          params.folderId⟩)
  else if t = "update_page" then
    .ok (.updatePageCall params.pageId params.payload)
  else .error (unknownToolMsg t)

/-- `handleToolCall(body)`: missing-`tool` validation, then the read-only
policy check on the two mutating names (before any parameter validation
and before any backend call — an error here forwards nothing to the
client), then the dispatch switch. -/
def handleToolCall (readOnly : Bool) (body : ToolCallBody) :
    Except String ClientCall :=
  if !truthy body.tool then .error toolRequiredMsg
  else
    let t := body.tool.getD ""
    if readOnly ∧ (t = "create_page" ∨ t = "update_page") then
      .error readOnlyMsg
    else dispatchSwitch t (body.params.getD emptyToolParams)

/-! ## Protocol adapter (`handleJsonRpc` and the HTTP endpoints) -/

/-- The `params` member of a `call_tool` envelope request: `params?.name`
and `params?.arguments`. -/
structure CallParams where
  name : Option String
  arguments : Option ToolParams

/-- A parsed envelope-shape request body `{jsonrpc, method, id, params}`;
`id := none` models an absent `id` member. -/
structure RpcRequest where
  jsonrpc : Option String
  method : Option String
  id : Option Json
  params : Option CallParams

/-- The invalid-envelope message. -/
def rpcInvalidMsg : String := "Formato JSON-RPC inválido."

/-- The unknown-method message, naming the method. -/
def unknownMethodMsg (m : String) : String :=
  "Método JSON-RPC desconocido: " ++ m

/-- `handleJsonRpc(body)`, with the execution of the dispatched client call
abstracted by `exec` (it performs the backend round trips and either
yields the tool result or throws with a message).  Returns the `{id,
result}` pair the handler returns, or the thrown message. -/
def handleJsonRpc (ts : List Tool) (readOnly : Bool)
    (exec : ClientCall → Except String Json) (req : RpcRequest) :
    Except String (Option Json × Json) :=
  if !truthy req.jsonrpc || !truthy req.method then .error rpcInvalidMsg
  else
    let m := req.method.getD ""
    if m = "initialize" then
      .ok (req.id,
           Json.obj [("capabilities",
             Json.obj [("tools",
               Json.obj [("list", Json.bool true),
                         ("call", Json.bool true)])])])
    else if m = "list_tools" then
      .ok (req.id, Json.obj [("tools", Json.arr (ts.map toolToJson))])
    else if m = "call_tool" then
      let tool := req.params.bind (fun p => p.name)
      let toolParams := req.params.bind (fun p => p.arguments)
      match (handleToolCall readOnly ⟨tool, toolParams⟩).bind exec with
      | .ok result => .ok (req.id, Json.obj [("content", result)])
      | .error msg => .error msg
    else .error (unknownMethodMsg m)

/-- An HTTP response: status code plus JSON body. -/
structure HttpResponse where
  status : Nat
  body : Json

/-- `sendJsonRpc(res, id, {result})`: always HTTP 200, body
`{jsonrpc: "2.0", id, result}` (an absent `id` is dropped by
`JSON.stringify`). -/
def mkRpcResultResponse (id : Option Json) (r : Json) : HttpResponse :=
  ⟨200, Json.obj ([("jsonrpc", Json.str "2.0")] ++
    (match id with | some v => [("id", v)] | none => []) ++
    [("result", r)])⟩

/-- `sendJsonRpcError(res, null, -32600, message)`: always HTTP 200, id
`null`, the one fixed error code `-32600`. -/
def mkRpcErrorResponse (msg : String) : HttpResponse :=
  ⟨200, Json.obj [("jsonrpc", Json.str "2.0"), ("id", Json.null),
    ("error", Json.obj [("code", Json.num (-32600)),
                        ("message", Json.str msg)])]⟩

/-- The envelope endpoint handler (identical for `POST /` and
`POST /mcp`): on success `sendJsonRpc(res, rpc.id, {result: rpc.result})`,
on any thrown error `sendJsonRpcError(res, null, -32600, message)`. -/
def rpcEndpoint (ts : List Tool) (readOnly : Bool)
    (exec : ClientCall → Except String Json) (req : RpcRequest) :
    HttpResponse :=
  match handleJsonRpc ts readOnly exec req with
  | .ok (id, result) => mkRpcResultResponse id result
  | .error msg => mkRpcErrorResponse msg

/-- Dispatch plus execution of the forwarded client call, as awaited by the
direct tool-call endpoint. -/
def toolCallRun (readOnly : Bool) (exec : ClientCall → Except String Json)
    (body : ToolCallBody) : Except String Json :=
  (handleToolCall readOnly body).bind exec

/-- The `POST /mcp/tool-call` handler: `sendJson(res, 200, {result})` on
success, `sendJson(res, 400, {error: message})` on any thrown error. -/
def toolCallEndpoint (readOnly : Bool)
    (exec : ClientCall → Except String Json) (body : ToolCallBody) :
    HttpResponse :=
  match toolCallRun readOnly exec body with
  | .ok r => ⟨200, Json.obj [("result", r)]⟩
  | .error msg => ⟨400, Json.obj [("error", Json.str msg)]⟩

/-! ## Theorems about the claims -/

/-- C1 (amended): for every backend response with a successful HTTP status
whose content signals an HTML document (content type indicates HTML, or
the body text contains a doctype marker), `request` fails with the
`ConfigError` and never returns the body as data. -/
theorem request_html_is_configError (r : BackendResponse) (hok : r.ok = true)
    (hhtml : isHtmlSignal r = true) :
    request r = .error (ReqError.configError htmlErrMsg) := by
  simp [request, hok, hhtml]

/-- A successful-status HTML response hitting the guard. -/
def htmlOkResp : BackendResponse :=
  ⟨true, 200, "text/html", Json.null, "<!doctype html><html></html>"⟩

/-- Witness for `request_html_is_configError` at a concrete response. -/
theorem request_html_is_configError_witness :
    htmlOkResp.ok = true ∧ isHtmlSignal htmlOkResp = true ∧
    request htmlOkResp = .error (ReqError.configError htmlErrMsg) :=
  ⟨rfl, by decide, request_html_is_configError htmlOkResp rfl (by decide)⟩

/-- An HTML response with a failing HTTP status. -/
def htmlNotOkResp : BackendResponse :=
  ⟨false, 404, "text/html", Json.null, "<!doctype html>"⟩

/-- C1 (counterexample): a response whose content signals HTML but whose
status is a failure does NOT fail with `ConfigError` — the status check
runs first and it fails with the `BackendError` instead, contradicting the
claim's "regardless of the response's HTTP status". -/
theorem request_html_status_counterexample :
    isHtmlSignal htmlNotOkResp = true ∧
    request htmlNotOkResp =
      .error (ReqError.backendError 404 (Json.str "<!doctype html>")) ∧
    ¬ ∃ m, request htmlNotOkResp = .error (ReqError.configError m) := by
  refine ⟨by decide, rfl, ?_⟩
  rintro ⟨m, h⟩
  have hb : request htmlNotOkResp =
      .error (ReqError.backendError 404 (Json.str "<!doctype html>")) := rfl
  rw [hb] at h
  injection h with h2
  exact ReqError.noConfusion h2

/-- C5: when read-only mode is active, dispatching `create_page` or
`update_page` fails with the `PolicyError` (READ_ONLY) message for every
parameter value — the error is raised before the dispatch switch, so no
parameter is validated and no client call is forwarded. -/
theorem readOnly_blocks_mutations (p : Option ToolParams) :
    handleToolCall true ⟨some "create_page", p⟩ = .error readOnlyMsg ∧
    handleToolCall true ⟨some "update_page", p⟩ = .error readOnlyMsg :=
  ⟨rfl, rfl⟩

/-- C6 (counterexample): in read-only mode `create_page` is not in the
advertised registry, yet dispatching it does not produce the
unknown-tool `ValidationError` naming it — it fails with the read-only
`PolicyError` message instead. -/
theorem unknownTool_readOnly_counterexample :
    ((advertisedTools true).map Tool.name).contains "create_page" = false ∧
    handleToolCall true ⟨some "create_page", none⟩ = .error readOnlyMsg ∧
    readOnlyMsg ≠ unknownToolMsg "create_page" :=
  ⟨by decide, rfl, by decide⟩

/-- C6 (amended): for every tool name outside the static base catalog,
dispatch fails (in either mode) with the `ValidationError` naming the
unknown tool; the two mutating names excluded from the read-only
advertised set instead hit the read-only `PolicyError`. -/
theorem unknown_tool_validationError (ro : Bool) (t : String)
    (p : Option ToolParams) (hne : t ≠ "")
    (hmem : t ∉ baseTools.map Tool.name) :
    handleToolCall ro ⟨some t, p⟩ = .error (unknownToolMsg t) := by
  simp [baseTools] at hmem
  obtain ⟨h1, h2, h3, h4, h5, h6⟩ := hmem
  simp [handleToolCall, truthy, dispatchSwitch, hne, h1, h2, h3, h4, h5, h6]

/-- Witness for `unknown_tool_validationError` at a concrete unknown
name. -/
theorem unknown_tool_validationError_witness :
    ("bogus" ≠ "") ∧ ("bogus" ∉ baseTools.map Tool.name) ∧
    handleToolCall false ⟨some "bogus", none⟩ =
      .error (unknownToolMsg "bogus") :=
  ⟨by decide, by decide,
   unknown_tool_validationError false "bogus" none (by decide) (by decide)⟩

/-- Every successful `handleJsonRpc` result carries the request's own
`id`. -/
theorem handleJsonRpc_ok_id (ts : List Tool) (ro : Bool)
    (exec : ClientCall → Except String Json) (req : RpcRequest)
    (i : Option Json) (r : Json)
    (h : handleJsonRpc ts ro exec req = .ok (i, r)) : i = req.id := by
  simp only [handleJsonRpc] at h
  split at h
  · exact absurd h (by simp)
  · split at h
    · exact (congrArg Prod.fst (Except.ok.inj h)).symm
    · split at h
      · exact (congrArg Prod.fst (Except.ok.inj h)).symm
      · split at h
        · split at h
          · exact (congrArg Prod.fst (Except.ok.inj h)).symm
          · exact absurd h (by simp)
        · exact absurd h (by simp)

/-- C2 (amended): every envelope response is either a success response in
the `{jsonrpc, id, result}` shape carrying back the original request's
`id`, or a failure response in the `{jsonrpc, id, error: {code, message}}`
shape with the one fixed error code `-32600` — whose `id` is always
`null`, not the original one. -/
theorem rpc_response_shape (ts : List Tool) (ro : Bool)
    (exec : ClientCall → Except String Json) (req : RpcRequest) :
    (∃ r, rpcEndpoint ts ro exec req = mkRpcResultResponse req.id r) ∨
    (∃ m, rpcEndpoint ts ro exec req = mkRpcErrorResponse m) := by
  match h : handleJsonRpc ts ro exec req with
  | .ok (i, r) =>
      left
      refine ⟨r, ?_⟩
      rw [rpcEndpoint, h, handleJsonRpc_ok_id ts ro exec req i r h]
  | .error m =>
      right
      exact ⟨m, by rw [rpcEndpoint, h]⟩

/-- A trivial client-call executor for concrete envelope evaluations. -/
def execNull : ClientCall → Except String Json := fun _ => .ok Json.null

/-- An envelope request with `id` 1 and an unknown method. -/
def cexRpcReq : RpcRequest := ⟨some "2.0", some "nope", some (Json.num 1), none⟩

/-- C2 (counterexample): the failure response to an envelope request
carrying `id` 1 does not carry back that `id` — the source always sends
`sendJsonRpcError(res, null, -32600, …)`, so the error response's `id` is
`null`. -/
theorem rpc_error_id_counterexample :
    rpcEndpoint baseTools false execNull cexRpcReq =
      mkRpcErrorResponse (unknownMethodMsg "nope") ∧
    jsonGet (rpcEndpoint baseTools false execNull cexRpcReq).body "id" =
      some Json.null ∧
    cexRpcReq.id = some (Json.num 1) ∧
    Json.null ≠ Json.num 1 :=
  ⟨rfl, rfl, rfl, fun h => Json.noConfusion h⟩

/-- C10: every envelope-shape response (success or failure) is sent with
HTTP status 200, while the direct tool-call endpoint answers 200 exactly
on success and 400 on every failure — so only the direct shape
distinguishes success from failure by status. -/
theorem response_status_policy (ts : List Tool) (ro : Bool)
    (exec : ClientCall → Except String Json) (req : RpcRequest)
    (body : ToolCallBody) :
    (rpcEndpoint ts ro exec req).status = 200 ∧
    (toolCallEndpoint ro exec body).status =
      (match toolCallRun ro exec body with
       | .ok _ => 200
       | .error _ => 400) := by
  constructor
  · rw [rpcEndpoint]
    match handleJsonRpc ts ro exec req with
    | .ok (i, r) => rfl
    | .error m => rfl
  · rw [toolCallEndpoint]
    match toolCallRun ro exec body with
    | .ok r => rfl
    | .error m => rfl

/-- C7: outbound credentials follow the fixed startup precedence.  For the
client `bootstrap` produces: with a truthy static token the headers carry
exactly the Bearer `Authorization` (no cookie, and login never ran, so no
session token exists); with no static token but configured credentials the
headers carry exactly the session cookie; with neither, no auth header.
A session token exists only when no static token was configured.  The
headers are a pure function of the client state fixed at startup, so the
choice is never re-evaluated per request. -/
theorem auth_precedence (cfg : Config) (tok : String) (htok : tok ≠ "") :
    (truthy cfg.apiToken = true →
       requestHeaders (bootstrapClient cfg tok) =
         [ctHeader, ("Authorization", "Bearer " ++ cfg.apiToken.getD "")] ∧
       (bootstrapClient cfg tok).authCookie = none) ∧
    (truthy cfg.apiToken = false → cfg.credentials.isSome = true →
       requestHeaders (bootstrapClient cfg tok) =
         [ctHeader, ("Cookie", "authToken=" ++ tok)]) ∧
    (truthy cfg.apiToken = false → cfg.credentials.isSome = false →
       requestHeaders (bootstrapClient cfg tok) = [ctHeader]) ∧
    ((bootstrapClient cfg tok).authCookie ≠ none →
       truthy cfg.apiToken = false) := by
  have hbeq : (tok == "") = false := beq_eq_false_iff_ne.mpr htok
  have htt : truthy (some tok) = true := by simp [truthy, hbeq]
  have hnone : truthy (none : Option String) = false := rfl
  cases ht : truthy cfg.apiToken with
  | true =>
      have hb : bootstrapClient cfg tok = ⟨cfg.apiToken, none⟩ := by
        simp [bootstrapClient, ht]
      simp [requestHeaders, hb, ht]
  | false =>
      cases hc : cfg.credentials.isSome with
      | true =>
          have hb : bootstrapClient cfg tok = ⟨cfg.apiToken, some tok⟩ := by
            simp [bootstrapClient, ht, hc]
          simp [requestHeaders, hb, ht, htt]
      | false =>
          have hb : bootstrapClient cfg tok = ⟨cfg.apiToken, none⟩ := by
            simp [bootstrapClient, ht, hc]
          simp [requestHeaders, hb, ht, hnone]

/-- A credentials-only configuration. -/
def credCfg : Config := ⟨"http://docmost.local", none, some ("e", "p"), false, 3000⟩

/-- Witness for `auth_precedence`: the credentials-only configuration ends
up sending exactly the session cookie. -/
theorem auth_precedence_witness :
    ("tk" ≠ "") ∧
    requestHeaders (bootstrapClient credCfg "tk") =
      [ctHeader, ("Cookie", "authToken=" ++ "tk")] :=
  ⟨by decide, (auth_precedence credCfg "tk" (by decide)).2.1 rfl rfl⟩

/-! ## Pagination theorems (C3, C4) -/

/-- The loop yields a result within `fuel` round trips exactly when one of
the first `fuel` fetched pages reports no next page. -/
theorem listPagesLoop_isSome_iff (oracle : Nat → SidebarResult) :
    ∀ (fuel page : Nat) (acc : List Json),
      (listPagesLoop oracle fuel page acc).isSome = true ↔
        ∃ j, j < fuel ∧ hasNextR (oracle (page + j)) = false := by
  intro fuel
  induction fuel with
  | zero => intro page acc; simp [listPagesLoop]
  | succ f ih =>
      intro page acc
      simp only [listPagesLoop]
      cases hn : hasNextR (oracle page) with
      | true =>
          rw [if_pos rfl, ih]
          constructor
          · rintro ⟨j, hj, hf⟩
            refine ⟨j + 1, by omega, ?_⟩
            rw [show page + (j + 1) = page + 1 + j by omega]
            exact hf
          · rintro ⟨j, hj, hf⟩
            cases j with
            | zero =>
                rw [Nat.add_zero, hn] at hf
                exact absurd hf (by simp)
            | succ j2 =>
                refine ⟨j2, by omega, ?_⟩
                rw [show page + 1 + j2 = page + (j2 + 1) by omega]
                exact hf
      | false =>
          rw [if_neg (by simp)]
          simp only [Option.isSome_some, true_iff]
          exact ⟨0, by omega, by rw [Nat.add_zero]; exact hn⟩

/-- C3 (amended): the pagination loop of `listPages` has no iteration cap;
it yields a result within a bound `fuel` of backend round trips exactly
when one of the first `fuel` pages reports `hasNextPage` false — so
against a backend that always reports a next page it never terminates. -/
theorem listPages_terminates_iff (oracle : Nat → SidebarResult)
    (fuel : Nat) (sid : Option String) (hsid : truthy sid = true) :
    (∃ r, listPages fuel sid oracle = .ok (some r)) ↔
      ∃ j, j < fuel ∧ hasNextR (oracle (1 + j)) = false := by
  have h1 := listPagesLoop_isSome_iff oracle fuel 1 []
  rw [Option.isSome_iff_exists] at h1
  rw [← h1]
  simp [listPages, hsid]

/-- A backend whose first page already reports no next page. -/
def oneFalseOracle : Nat → SidebarResult :=
  fun _ => ⟨[], some (Json.obj [("hasNextPage", Json.bool false)])⟩

/-- Witness for `listPages_terminates_iff` on a backend that stops at the
first page. -/
theorem listPages_terminates_iff_witness :
    truthy (some "s1") = true ∧
    ((∃ r, listPages 1 (some "s1") oneFalseOracle = .ok (some r)) ↔
      ∃ j, j < 1 ∧ hasNextR (oneFalseOracle (1 + j)) = false) :=
  ⟨rfl, listPages_terminates_iff oneFalseOracle 1 (some "s1") rfl⟩

/-- A backend that always reports another page. -/
def alwaysNextOracle : Nat → SidebarResult :=
  fun _ => ⟨[], some (Json.obj [("hasNextPage", Json.bool true)])⟩

/-- Against `alwaysNextOracle`, no amount of fuel makes the loop finish. -/
theorem alwaysNext_loop_none :
    ∀ (fuel page : Nat) (acc : List Json),
      listPagesLoop alwaysNextOracle fuel page acc = none := by
  intro fuel
  induction fuel with
  | zero => intro page acc; rfl
  | succ f ih =>
      intro page acc
      simp only [listPagesLoop]
      rw [if_pos (show hasNextR (alwaysNextOracle page) = true from rfl)]
      exact ih (page + 1) (acc ++ (alwaysNextOracle page).items)

/-- The claim's terminating behaviour, written for the concrete
all-`hasNextPage:true` backend: the call never produces a result, whatever
iteration bound is allowed. -/
def listPagesDivergesAlways : Prop :=
  ∀ fuel, listPages fuel (some "s1") alwaysNextOracle = .ok none

/-- C3 (counterexample): for the infinite backend sequence that always
reports `hasNextPage: true`, `listPages` does not terminate — the loop is
still running after every bound of iterations, refuting the claim that it
terminates after a bounded number of iterations. -/
theorem listPages_no_iteration_cap : listPagesDivergesAlways := by
  intro fuel
  rw [listPages, if_neg (by simp [truthy]), alwaysNext_loop_none]

/-- When pages `page … page+n-1` report a next page and page `page+n` does
not, the loop fetches exactly pages `page … page+n`, appending their items
in order, and returns the last page's metadata. -/
theorem listPagesLoop_reaches (oracle : Nat → SidebarResult) :
    ∀ (n page : Nat) (acc : List Json) (fuel : Nat),
      (∀ j, j < n → hasNextR (oracle (page + j)) = true) →
      hasNextR (oracle (page + n)) = false →
      n + 1 ≤ fuel →
      listPagesLoop oracle fuel page acc =
        some (acc ++ (List.map (fun i => (oracle i).items)
            (List.range' page (n + 1))).flatten,
          metaOf (oracle (page + n))) := by
  intro n
  induction n with
  | zero =>
      intro page acc fuel htrue hfalse hfuel
      obtain ⟨f, rfl⟩ : ∃ f, fuel = f + 1 := ⟨fuel - 1, by omega⟩
      rw [Nat.add_zero] at hfalse
      simp only [listPagesLoop]
      rw [if_neg (by simp [hfalse])]
      simp [List.range']
  | succ n2 ih =>
      intro page acc fuel htrue hfalse hfuel
      obtain ⟨f, rfl⟩ : ∃ f, fuel = f + 1 := ⟨fuel - 1, by omega⟩
      have h0 : hasNextR (oracle page) = true := by
        have h := htrue 0 (by omega)
        rwa [Nat.add_zero] at h
      simp only [listPagesLoop]
      rw [if_pos h0]
      have ih2 := ih (page + 1) (acc ++ (oracle page).items) f
        (fun j hj => by
          have h := htrue (j + 1) (by omega)
          rwa [show page + (j + 1) = page + 1 + j by omega] at h)
        (by rwa [show page + (n2 + 1) = page + 1 + n2 by omega] at hfalse)
        (by omega)
      rw [ih2, show page + (n2 + 1) = page + 1 + n2 by omega]
      simp [List.range'_succ, List.append_assoc]

/-- C4: for a backend whose pages `1 … n` report `hasNextPage` true and
whose page `n+1` is the first to report false, `listPages` (with a truthy
`spaceId` and enough fuel to reach that page) accumulates the items of
pages `1 … n+1` in order and returns them with the final page's
metadata. -/
theorem listPages_accumulates (oracle : Nat → SidebarResult)
    (sid : Option String) (n fuel : Nat) (hsid : truthy sid = true)
    (htrue : ∀ j, j < n → hasNextR (oracle (1 + j)) = true)
    (hfalse : hasNextR (oracle (1 + n)) = false)
    (hfuel : n + 1 ≤ fuel) :
    listPages fuel sid oracle =
      .ok (some ((List.map (fun i => (oracle i).items)
          (List.range' 1 (n + 1))).flatten,
        metaOf (oracle (1 + n)))) := by
  have h := listPagesLoop_reaches oracle n 1 [] fuel htrue hfalse hfuel
  rw [listPages, if_neg (by simp [hsid]), h]
  simp

/-- First page of the spec's concrete example: items `[a, b]`, more pages
to come. -/
def exPage1 : SidebarResult :=
  ⟨[Json.str "a", Json.str "b"], some (Json.obj [("hasNextPage", Json.bool true)])⟩

/-- Second page of the spec's concrete example: items `[c]`, last page. -/
def exPage2 : SidebarResult :=
  ⟨[Json.str "c"], some (Json.obj [("hasNextPage", Json.bool false)])⟩

/-- The two-page backend of the spec's concrete example. -/
def exOracle : Nat → SidebarResult := fun p => if p = 1 then exPage1 else exPage2

/-- Witness for `listPages_accumulates`: on pages
`[{items:[a,b], hasNextPage:true}, {items:[c], hasNextPage:false}]` the
result is `items = [a, b, c]` with the second page's metadata. -/
theorem listPages_accumulates_witness :
    truthy (some "s1") = true ∧
    (∀ j, j < 1 → hasNextR (exOracle (1 + j)) = true) ∧
    hasNextR (exOracle (1 + 1)) = false ∧
    listPages 2 (some "s1") exOracle =
      .ok (some ([Json.str "a", Json.str "b", Json.str "c"],
        some (Json.obj [("hasNextPage", Json.bool false)]))) := by
  refine ⟨rfl, by decide, rfl, ?_⟩
  exact listPages_accumulates exOracle (some "s1") 1 2 rfl (by decide) rfl
    (by omega)

/-- C8: `createPage` fails with the `ValidationError` when `title`,
`content` or `spaceId` is absent; otherwise (all three supplied non-empty)
it posts a body whose `parentPageId` is `null` when `folderId` is omitted
and is the given `folderId` when one is supplied. -/
theorem createPage_parentPageId (p : CreatePageInput) :
    ((p.title = none ∨ p.content = none ∨ p.spaceId = none) →
       createPage p = .error createPageErrMsg) ∧
    (∀ t c s, p.title = some t → p.content = some c → p.spaceId = some s →
       t ≠ "" → c ≠ "" → s ≠ "" →
       ((p.folderId = none →
           createPage p = .ok ⟨"/api/pages/create",
             Json.obj [("title", Json.str t), ("content", Json.str c),
                       ("spaceId", Json.str s),
                       ("parentPageId", Json.null)]⟩) ∧
        (∀ fid, p.folderId = some fid → fid ≠ "" →
           createPage p = .ok ⟨"/api/pages/create",
             Json.obj [("title", Json.str t), ("content", Json.str c),
                       ("spaceId", Json.str s),
                       ("parentPageId", Json.str fid)]⟩))) := by
  constructor
  · rintro (h | h | h) <;> simp [createPage, truthy, h]
  · intro t c s ht hc hs hnt hnc hns
    constructor
    · intro hf
      simp [createPage, truthy, ht, hc, hs, hf, hnt, hnc, hns]
    · intro fid hf hnf
      simp [createPage, truthy, ht, hc, hs, hf, hnt, hnc, hns, hnf]

/-- Witness for `createPage_parentPageId`: a missing title fails; with all
required fields, an omitted `folderId` yields `parentPageId: null` and
`folderId: "f1"` yields `parentPageId: "f1"`. -/
theorem createPage_parentPageId_witness :
    createPage ⟨none, some "c", some "s", none⟩ = .error createPageErrMsg ∧
    createPage ⟨some "T", some "C", some "S", none⟩ =
      .ok ⟨"/api/pages/create",
        Json.obj [("title", Json.str "T"), ("content", Json.str "C"),
                  ("spaceId", Json.str "S"), ("parentPageId", Json.null)]⟩ ∧
    createPage ⟨some "T", some "C", some "S", some "f1"⟩ =
      .ok ⟨"/api/pages/create",
        Json.obj [("title", Json.str "T"), ("content", Json.str "C"),
                  ("spaceId", Json.str "S"),
                  ("parentPageId", Json.str "f1")]⟩ :=
  ⟨(createPage_parentPageId ⟨none, some "c", some "s", none⟩).1 (Or.inl rfl),
   ((createPage_parentPageId ⟨some "T", some "C", some "S", none⟩).2
      "T" "C" "S" rfl rfl rfl (by decide) (by decide) (by decide)).1 rfl,
   ((createPage_parentPageId ⟨some "T", some "C", some "S", some "f1"⟩).2
      "T" "C" "S" rfl rfl rfl (by decide) (by decide) (by decide)).2
     "f1" rfl (by decide)⟩

/-! ## Association-list lemmas for the updatePage body (C9) -/

/-- Setting a key makes it the key's binding. -/
theorem getKey_objSet_self (l : List (String × Json)) (k : String) (v : Json) :
    getKey (objSet l k v) k = some v := by
  induction l with
  | nil => simp [objSet, getKey]
  | cons p rest ih =>
      obtain ⟨k0, v0⟩ := p
      by_cases h : k0 = k
      · simp [objSet, h, getKey]
      · simp [objSet, h, getKey, ih]

/-- Setting one key leaves other keys' bindings unchanged. -/
theorem getKey_objSet_of_ne (l : List (String × Json)) (k k2 : String)
    (v : Json) (hne : k2 ≠ k) : getKey (objSet l k2 v) k = getKey l k := by
  induction l with
  | nil => simp [objSet, getKey, hne]
  | cons p rest ih =>
      obtain ⟨k0, v0⟩ := p
      by_cases h : k0 = k2
      · subst h
        simp [objSet, getKey, hne]
      · simp [objSet, h, getKey, ih]

/-- A key absent from the list has no binding. -/
theorem getKey_eq_none_of_not_mem (l : List (String × Json)) (k : String)
    (h : k ∉ l.map Prod.fst) : getKey l k = none := by
  induction l with
  | nil => rfl
  | cons p rest ih =>
      obtain ⟨k0, v0⟩ := p
      simp only [List.map_cons, List.mem_cons, not_or] at h
      obtain ⟨h1, h2⟩ := h
      simp [getKey, Ne.symm h1, ih h2]

/-- Spreading `extra` over `base` gives each key `extra`'s last binding
when there is one, else `base`'s. -/
theorem getKey_spreadInto (extra : List (String × Json)) :
    ∀ (base : List (String × Json)) (k : String),
      getKey (spreadInto base extra) k =
        match lastBinding extra k with
        | some v => some v
        | none => getKey base k := by
  induction extra with
  | nil => intro base k; simp [spreadInto, lastBinding]
  | cons p rest ih =>
      intro base k
      obtain ⟨k0, v0⟩ := p
      have hs : spreadInto base ((k0, v0) :: rest) =
          spreadInto (objSet base k0 v0) rest := rfl
      rw [hs, ih]
      cases hl : lastBinding rest k with
      | some v => simp [lastBinding, hl]
      | none =>
          simp only [lastBinding, hl]
          by_cases h : k0 = k
          · subst h
            simp [getKey_objSet_self]
          · simp [h, getKey_objSet_of_ne base k k0 v0 h]

/-- With unique keys (as in a JS object), the last binding is the
binding. -/
theorem lastBinding_eq_getKey (l : List (String × Json))
    (h : (l.map Prod.fst).Nodup) : ∀ k, lastBinding l k = getKey l k := by
  induction l with
  | nil => intro k; rfl
  | cons p rest ih =>
      obtain ⟨k0, v0⟩ := p
      rw [List.map_cons, List.nodup_cons] at h
      intro k
      by_cases hk : k0 = k
      · subst hk
        have hrest : getKey rest k0 = none :=
          getKey_eq_none_of_not_mem rest k0 h.1
        simp [lastBinding, getKey, ih h.2, hrest]
      · simp only [lastBinding, getKey, ih h.2, hk, if_false]
        cases getKey rest k <;> simp

/-- C9: `updatePage` posts `{ pageId, ...payload }` to
`/api/pages/update`; because the payload is spread after the `pageId` key,
a `pageId` field inside the payload overrides the `pageId` argument in the
request body, and for every payload without a `pageId` key the body's
`pageId` is the argument. -/
theorem updatePage_payload_overrides (pid : String)
    (payload : List (String × Json)) (hpid : pid ≠ "")
    (hnd : (payload.map Prod.fst).Nodup) :
    updatePage (some pid) (some payload) =
      .ok ⟨"/api/pages/update", Json.obj (updateBodyFields pid payload)⟩ ∧
    (∀ v, getKey payload "pageId" = some v →
       getKey (updateBodyFields pid payload) "pageId" = some v) ∧
    (getKey payload "pageId" = none →
       getKey (updateBodyFields pid payload) "pageId" = some (Json.str pid)) := by
  refine ⟨by simp [updatePage, truthy, hpid], ?_, ?_⟩
  · intro v hv
    rw [updateBodyFields, getKey_spreadInto, lastBinding_eq_getKey payload hnd,
      hv]
  · intro hv
    rw [updateBodyFields, getKey_spreadInto, lastBinding_eq_getKey payload hnd,
      hv]
    simp [getKey]

/-- Witness for `updatePage_payload_overrides`: a payload carrying its own
`pageId` wins over the argument, and one without keeps the argument. -/
theorem updatePage_payload_overrides_witness :
    ("p1" ≠ "") ∧
    ((([("pageId", Json.str "p2")] : List (String × Json)).map Prod.fst).Nodup) ∧
    getKey (updateBodyFields "p1" [("pageId", Json.str "p2")]) "pageId" =
      some (Json.str "p2") ∧
    getKey (updateBodyFields "p1" [("title", Json.str "t")]) "pageId" =
      some (Json.str "p1") :=
  ⟨by decide, by decide,
   (updatePage_payload_overrides "p1" [("pageId", Json.str "p2")] (by decide)
      (by decide)).2.1 (Json.str "p2") rfl,
   (updatePage_payload_overrides "p1" [("title", Json.str "t")] (by decide)
      (by decide)).2.2 rfl⟩

end Docmost
